import Mathlib

/-!
Shallow embedding of `tools/kvm/virtio/core.c` — the virtqueue engine of the
kvmtool hypervisor: descriptor-chain walking, used-ring production,
event-index notification suppression, config-field routing and transport
binding.  Machine integers are modelled as `Nat` (with explicit `% 2^16`
where 16-bit wraparound matters in the source), guest memory accesses go
through an injected `Kvm` capability, and the loops of the chain walkers are
given explicit fuel, returning `none` when the fuel is exhausted (the C
loops have no bound of their own).  Stateful functions return the updated
queue next to their result, threading the queue through every step so that
read-only passes are provably identity on the queue.
-/

namespace VirtioCore

/-- Descriptor flag: this descriptor continues via the `next` field
(`VRING_DESC_F_NEXT` from `linux/virtio_ring.h`). -/
def VRING_DESC_F_NEXT : Nat := 1

/-- Descriptor flag: buffer is write-only for the device
(`VRING_DESC_F_WRITE`). -/
def VRING_DESC_F_WRITE : Nat := 2

/-- Descriptor flag: buffer contains a table of indirect descriptors
(`VRING_DESC_F_INDIRECT`). -/
def VRING_DESC_F_INDIRECT : Nat := 4

/-- One entry of a descriptor table: `struct vring_desc`
(64-bit guest address, 32-bit length, 16-bit flags, 16-bit next index). -/
structure VringDesc where
  addr : Nat
  len : Nat
  flags : Nat
  next : Nat
deriving DecidableEq

/-- One completion record of the used ring: `struct vring_used_elem`
(32-bit id, 32-bit length). -/
structure VringUsedElem where
  id : Nat
  len : Nat
deriving DecidableEq

/-- Modelled from the spec: the descriptor record is 64-bit address +
32-bit length + 16-bit flags + 16-bit next = 16 bytes
(`sizeof(struct vring_desc)`, whose layout comes from the
`linux/virtio_ring.h` header, which is not part of the sources). -/
def vring_desc_size : Nat := 16

/-- The host view of one virtqueue: `struct virt_queue` together with the
guest-resident `struct vring` regions it aliases.  The descriptor table,
the available ring and the used ring are guest memory, modelled as total
functions from index to record; `used_event` models
`vring_used_event(&vring)` (the entry of the avail ring past its last
slot); `last_avail_idx` and `last_used_signalled` are host-local cursors. -/
structure VirtQueue where
  num : Nat
  desc : Nat → VringDesc
  avail_ring : Nat → Nat
  avail_idx : Nat
  used_ring : Nat → VringUsedElem
  used_idx : Nat
  used_event : Nat
  last_avail_idx : Nat
  last_used_signalled : Nat

/-- One scatter/gather segment: `struct iovec`, with the host pointer
modelled as a `Nat`. -/
structure Iovec where
  iov_base : Nat
  iov_len : Nat
deriving DecidableEq

/-- The guest-address-resolver capability (`struct kvm *`): `flat` models
`guest_flat_to_host`, and `descTable` models reading entry `i` of the
descriptor table that guest memory holds at a given guest physical
address (used when an indirect descriptor redirects the walk). -/
structure Kvm where
  flat : Nat → Nat
  descTable : Nat → Nat → VringDesc

/-- Modelled from the spec: `virtio_guest_to_host_u16` (from the
`kvm/virtio.h` header, not in the sources) — the Endianness/Field
Accessor, a bijection on 16-bit field values; on numeric values it is the
identity. -/
def virtio_guest_to_host_u16 (vq : VirtQueue) (v : Nat) : Nat := v

/-- Modelled from the spec: `virtio_guest_to_host_u32`, see
`virtio_guest_to_host_u16`. -/
def virtio_guest_to_host_u32 (vq : VirtQueue) (v : Nat) : Nat := v

/-- Modelled from the spec: `virtio_guest_to_host_u64`, see
`virtio_guest_to_host_u16`. -/
def virtio_guest_to_host_u64 (vq : VirtQueue) (v : Nat) : Nat := v

/-- Modelled from the spec: `virtio_host_to_guest_u16`, inverse direction
of the Endianness/Field Accessor. -/
def virtio_host_to_guest_u16 (vq : VirtQueue) (v : Nat) : Nat := v

/-- Modelled from the spec: `virtio_host_to_guest_u32`, see
`virtio_host_to_guest_u16`. -/
def virtio_host_to_guest_u32 (vq : VirtQueue) (v : Nat) : Nat := v

/-- `virt_desc__test_flag`: tests a bit of a descriptor's flag word. -/
def virt_desc__test_flag (vq : VirtQueue) (desc : VringDesc) (flag : Nat) : Bool :=
  decide (virtio_guest_to_host_u16 vq desc.flags &&& flag ≠ 0)

/-- `virt_queue__set_used_elem`: writes the completion record for `head`
with byte count `len` into the used ring at slot `used_idx % num`, then
advances the 16-bit used index by one.  The two `wmb()` barriers of the
source order the stores against a concurrently reading guest and have no
effect on the sequential value computed here. -/
def virt_queue__set_used_elem (queue : VirtQueue) (head len : Nat) :
    VringUsedElem × VirtQueue :=
  let idx := virtio_guest_to_host_u16 queue queue.used_idx
  let used_elem : VringUsedElem :=
    { id := virtio_host_to_guest_u32 queue head
      len := virtio_host_to_guest_u32 queue len }
  let q1 := { queue with
    used_ring := fun j => if j = idx % queue.num then used_elem else queue.used_ring j }
  let q2 := { q1 with used_idx := virtio_host_to_guest_u16 q1 ((idx + 1) % 65536) }
  (used_elem, q2)

/-- Modelled from the spec: `vring_need_event` from the
`linux/virtio_ring.h` header (not in the sources) — using 16-bit
wraparound-safe unsigned arithmetic, a signal is due when
`(new - event - 1)` computed mod 2^16 is strictly less than
`(new - old)` computed mod 2^16. -/
def vring_need_event (event_idx new_idx old : Nat) : Bool :=
  decide ((((new_idx : Int) - (event_idx : Int) - 1) % 65536)
    < (((new_idx : Int) - (old : Int)) % 65536))

/-- Modelled from the spec: `vring_used_event(&vq->vring)` — the
guest-published used-event threshold, stored past the last slot of the
avail ring; modelled as the `used_event` field of the queue. -/
def vring_used_event (vq : VirtQueue) : Nat := vq.used_event

/-- `virtio_queue__should_signal`: the Notification Suppression Engine.
Reads `old` from the host-local `last_used_signalled` cursor, `new` from
the used ring's index and `event` from the guest-published threshold; when
`vring_need_event` holds it updates the cursor to `new` and reports
`true`. -/
def virtio_queue__should_signal (vq : VirtQueue) : Bool × VirtQueue :=
  let old_idx := vq.last_used_signalled
  let new_idx := virtio_guest_to_host_u16 vq vq.used_idx
  let event_idx := virtio_guest_to_host_u16 vq (vring_used_event vq)
  if vring_need_event event_idx new_idx old_idx then
    (true, { vq with last_used_signalled := new_idx })
  else
    (false, vq)

/-- `next_desc`: returns the next descriptor index of a chain, or `max`
when the current descriptor carries no `NEXT` flag.  The source comment
says the next index is checked against the end of the descriptor table,
but no such check is performed: the raw `next` field is returned. -/
def next_desc (vq : VirtQueue) (desc : Nat → VringDesc) (i max : Nat) : Nat :=
  if ¬ virt_desc__test_flag vq (desc i) VRING_DESC_F_NEXT then max
  else virtio_guest_to_host_u16 vq (desc i).next

/-- The segment built for one visited descriptor: the two assignments
`iov[k].iov_len = ...; iov[k].iov_base = guest_flat_to_host(...)` of the
walk loops. -/
def descSeg (vq : VirtQueue) (kvm : Kvm) (desc : Nat → VringDesc) (idx : Nat) : Iovec :=
  { iov_base := kvm.flat (virtio_guest_to_host_u64 vq (desc idx).addr)
    iov_len := virtio_guest_to_host_u32 vq (desc idx).len }

/-- The do-while loop of `virt_queue__get_head_iov`: appends one segment
per visited descriptor (writes land at slot `*out + *in`, which always
equals the number of segments built so far, so the writes are modelled as
appends), bumps `*in` for WRITE-flagged descriptors and `*out` otherwise,
and continues while `next_desc` returns something other than `max`.  The
C loop has no iteration bound, so the recursion is fuelled: `none` means
the fuel ran out before the chain ended. -/
def head_iov_loop (kvm : Kvm) (desc : Nat → VringDesc) (max : Nat) :
    Nat → VirtQueue → Nat → List Iovec → Nat → Nat →
    Option (List Iovec × Nat × Nat) × VirtQueue
  | 0, vq, _, _, _, _ => (none, vq)
  | fuel + 1, vq, idx, iov, out, inn =>
    if next_desc vq desc idx max = max then
      (some (iov ++ [descSeg vq kvm desc idx],
             if virt_desc__test_flag vq (desc idx) VRING_DESC_F_WRITE then out else out + 1,
             if virt_desc__test_flag vq (desc idx) VRING_DESC_F_WRITE then inn + 1 else inn),
       vq)
    else
      head_iov_loop kvm desc max fuel vq (next_desc vq desc idx max)
        (iov ++ [descSeg vq kvm desc idx])
        (if virt_desc__test_flag vq (desc idx) VRING_DESC_F_WRITE then out else out + 1)
        (if virt_desc__test_flag vq (desc idx) VRING_DESC_F_WRITE then inn + 1 else inn)

/-- `virt_queue__get_head_iov`: walks the chain starting at `head`.  When
the head descriptor carries the INDIRECT flag the walk is redirected to
the descriptor table guest memory holds at the head's address, with
maximum bound `len / sizeof(struct vring_desc)` and starting index 0;
otherwise it runs over the queue's own table with bound `vring.num`.
Returns the segments, the `*out` and `*in` counters, and `head`
unchanged. -/
def virt_queue__get_head_iov (vq : VirtQueue) (kvm : Kvm) (head fuel : Nat) :
    Option (List Iovec × Nat × Nat × Nat) × VirtQueue :=
  let ind := virt_desc__test_flag vq (vq.desc head) VRING_DESC_F_INDIRECT
  let max := if ind then virtio_guest_to_host_u32 vq (vq.desc head).len / vring_desc_size
             else vq.num
  let desc := if ind then kvm.descTable (virtio_guest_to_host_u64 vq (vq.desc head).addr)
              else vq.desc
  let idx := if ind then 0 else head
  let L := head_iov_loop kvm desc max fuel vq idx [] 0 0
  (L.1.map fun r => (r.1, r.2.1, r.2.2, head), L.2)

/-- Modelled from the spec: `virt_queue__pop` from the `kvm/virtio.h`
header (not in the sources) — the Available-Ring Consumer: returns the
next chain head index in FIFO order, read from the avail ring at the
host's 16-bit cursor position modulo the ring size, and advances the
cursor. -/
def virt_queue__pop (queue : VirtQueue) : Nat × VirtQueue :=
  (queue.avail_ring (queue.last_avail_idx % queue.num),
   { queue with last_avail_idx := (queue.last_avail_idx + 1) % 65536 })

/-- `virt_queue__get_iov`: pops the next head from the available ring and
walks its chain via `virt_queue__get_head_iov`. -/
def virt_queue__get_iov (vq : VirtQueue) (kvm : Kvm) (fuel : Nat) :
    Option (List Iovec × Nat × Nat × Nat) × VirtQueue :=
  let p := virt_queue__pop vq
  virt_queue__get_head_iov p.2 kvm p.1 fuel

/-- Modelled from the spec: `virt_queue__get_desc` from the
`kvm/virtio.h` header (not in the sources) — reads descriptor `idx` of
the queue's descriptor table. -/
def virt_queue__get_desc (queue : VirtQueue) (idx : Nat) : VringDesc :=
  queue.desc idx

/-- The do-while loop of `virt_queue__get_inout_iov`: like
`head_iov_loop` but splitting segments into separate guest-relative `in`
(WRITE-flagged) and `out` arrays, and following `next` directly while the
NEXT flag is set, with no `max` sentinel.  Fuelled like
`head_iov_loop`. -/
def inout_iov_loop (kvm : Kvm) :
    Nat → VirtQueue → Nat → List Iovec → List Iovec → Nat → Nat →
    Option (List Iovec × List Iovec × Nat × Nat) × VirtQueue
  | 0, queue, _, _, _, _, _ => (none, queue)
  | fuel + 1, queue, idx, in_iov, out_iov, inn, out =>
    if virt_desc__test_flag queue (virt_queue__get_desc queue idx) VRING_DESC_F_NEXT then
      inout_iov_loop kvm fuel queue
        (virtio_guest_to_host_u16 queue (virt_queue__get_desc queue idx).next)
        (if virt_desc__test_flag queue (virt_queue__get_desc queue idx) VRING_DESC_F_WRITE
         then in_iov ++ [descSeg queue kvm queue.desc idx] else in_iov)
        (if virt_desc__test_flag queue (virt_queue__get_desc queue idx) VRING_DESC_F_WRITE
         then out_iov else out_iov ++ [descSeg queue kvm queue.desc idx])
        (if virt_desc__test_flag queue (virt_queue__get_desc queue idx) VRING_DESC_F_WRITE
         then inn + 1 else inn)
        (if virt_desc__test_flag queue (virt_queue__get_desc queue idx) VRING_DESC_F_WRITE
         then out else out + 1)
    else
      (some
        ((if virt_desc__test_flag queue (virt_queue__get_desc queue idx) VRING_DESC_F_WRITE
          then in_iov ++ [descSeg queue kvm queue.desc idx] else in_iov),
         (if virt_desc__test_flag queue (virt_queue__get_desc queue idx) VRING_DESC_F_WRITE
          then out_iov else out_iov ++ [descSeg queue kvm queue.desc idx]),
         (if virt_desc__test_flag queue (virt_queue__get_desc queue idx) VRING_DESC_F_WRITE
          then inn + 1 else inn),
         (if virt_desc__test_flag queue (virt_queue__get_desc queue idx) VRING_DESC_F_WRITE
          then out else out + 1)),
       queue)

/-- `virt_queue__get_inout_iov`: pops the next head, then walks its chain
splitting segments into guest-relative `in` and `out` arrays; returns the
two arrays, the two counters and the popped head. -/
def virt_queue__get_inout_iov (kvm : Kvm) (queue : VirtQueue) (fuel : Nat) :
    Option (List Iovec × List Iovec × Nat × Nat × Nat) × VirtQueue :=
  let p := virt_queue__pop queue
  let L := inout_iov_loop kvm fuel p.2 p.1 [] [] 0 0
  (L.1.map fun r => (r.1, r.2.1, r.2.2.1, r.2.2.2, p.1), L.2)

/-- Return tags of `virtio__get_dev_specific_field`: `VIRTIO_PCI_O_MSIX`
and `VIRTIO_PCI_O_CONFIG` from the `kvm/virtio-pci.h` header, modelled as
an inductive since only their distinctness matters. -/
inductive ConfigRegion where
  | O_MSIX : ConfigRegion
  | O_CONFIG : ConfigRegion
deriving DecidableEq

/-- `virtio__get_dev_specific_field`: classifies a raw config-space offset
into the extended-capability (MSI-X) region or the device-specific config
region; the second component models the `*config_off` out-parameter, which
the source only writes on the config path. -/
def virtio__get_dev_specific_field (offset : Int) (msix : Bool) :
    ConfigRegion × Option Int :=
  if msix then
    if offset < 4 then
      (ConfigRegion.O_MSIX, none)
    else
      (ConfigRegion.O_CONFIG, some (offset - 4))
  else
    (ConfigRegion.O_CONFIG, some offset)

/-- Modelled from the spec: the numeric value of `VIRTIO_PCI` in
`enum virtio_trans` (from the `kvm/virtio.h` header, not in the sources);
the enum has exactly the two transports as members, but the dispatch in
`virtio_init` treats every other value through its default branch, so the
transport argument is modelled as a `Nat`. -/
def VIRTIO_PCI : Nat := 0

/-- Modelled from the spec: the numeric value of `VIRTIO_MMIO` in
`enum virtio_trans`, see `VIRTIO_PCI`. -/
def VIRTIO_MMIO : Nat := 1

/-- Modelled from the spec: `ENOMEM` from `errno.h` — the out-of-memory
error number (12); `virtio_init` returns its negation on allocation
failure. -/
def ENOMEM : Int := 12

/-- `virtio_trans_name`: human-readable name of a transport kind. -/
def virtio_trans_name (trans : Nat) : String :=
  if trans = VIRTIO_PCI then "pci"
  else if trans = VIRTIO_MMIO then "mmio"
  else "unknown"

/-- The host functions `virtio_init` may install as callbacks; their
bodies live in the PCI and MMIO transport files, outside this core, so
they are modelled as opaque tags. -/
inductive HostFn where
  | virtio_pci__signal_vq : HostFn
  | virtio_pci__signal_config : HostFn
  | virtio_pci__init : HostFn
  | virtio_pci__exit : HostFn
  | virtio_mmio_signal_vq : HostFn
  | virtio_mmio_signal_config : HostFn
  | virtio_mmio_init : HostFn
  | virtio_mmio_exit : HostFn
deriving DecidableEq

/-- The operation table `struct virtio_ops`: the four callback slots that
`virtio_init` installs, each an optional function pointer. -/
structure VirtioOps where
  signal_vq : Option HostFn
  signal_config : Option HostFn
  init : Option HostFn
  exit : Option HostFn
deriving DecidableEq

/-- The transport-private state `virtio_init` allocates: a zeroed
`struct virtio_pci` or `struct virtio_mmio`, modelled by its kind. -/
inductive TransportState where
  | pci : TransportState
  | mmio : TransportState
deriving DecidableEq

/-- The device handle `struct virtio_device`: the transport-private
pointer and the operation-table pointer, both null before binding. -/
structure VirtioDevice where
  virtio : Option TransportState
  ops : Option VirtioOps
deriving DecidableEq

/-- `virtio_init`: the Transport Binding.  Dispatches on the transport
kind; for each supported transport it allocates transport-private state
(`alloc_ok` models whether `calloc` succeeds), attaches it and the
operation table to the device handle, installs the four transport
callbacks and invokes the transport's init (the third component of the
result records that the installed init callback was invoked).  Allocation
failure returns `-ENOMEM` and an unknown kind returns `-1`, in both cases
before any callback is installed, leaving the device handle unchanged. -/
def virtio_init (alloc_ok : Bool) (vdev : VirtioDevice) (ops : VirtioOps) (trans : Nat) :
    Int × VirtioDevice × Bool :=
  if trans = VIRTIO_PCI then
    if alloc_ok then
      (0,
       { vdev with
         virtio := some TransportState.pci
         ops := some { ops with
           signal_vq := some HostFn.virtio_pci__signal_vq
           signal_config := some HostFn.virtio_pci__signal_config
           init := some HostFn.virtio_pci__init
           exit := some HostFn.virtio_pci__exit } },
       true)
    else (-ENOMEM, vdev, false)
  else if trans = VIRTIO_MMIO then
    if alloc_ok then
      (0,
       { vdev with
         virtio := some TransportState.mmio
         ops := some { ops with
           signal_vq := some HostFn.virtio_mmio_signal_vq
           signal_config := some HostFn.virtio_mmio_signal_config
           init := some HostFn.virtio_mmio_init
           exit := some HostFn.virtio_mmio_exit } },
       true)
    else (-ENOMEM, vdev, false)
  else
    (-1, vdev, false)

/-- A well-formed terminating descriptor chain over descriptor table
`desc` with index bound `max`: every index on the chain is below `max`,
every non-terminal descriptor carries the NEXT flag and links to the rest
of the chain, and the terminal descriptor carries no NEXT flag.  This is
the validity notion of the spec's "valid chains": such a chain is
followed identically by both walk loops. -/
inductive Chain (desc : Nat → VringDesc) (max : Nat) : Nat → List Nat → Prop where
  | last (idx : Nat) (hlt : idx < max)
      (hend : (desc idx).flags &&& VRING_DESC_F_NEXT = 0) :
      Chain desc max idx [idx]
  | cons (idx : Nat) (c : List Nat) (hlt : idx < max)
      (hnext : (desc idx).flags &&& VRING_DESC_F_NEXT ≠ 0)
      (htail : Chain desc max (desc idx).next c) :
      Chain desc max idx (idx :: c)

/-- An all-zero descriptor, used by the concrete example queues. -/
def zeroDesc : VringDesc := ⟨0, 0, 0, 0⟩

/-- A concrete base queue for the witnesses. -/
def baseQ : VirtQueue :=
  { num := 4, desc := fun _ => zeroDesc, avail_ring := fun _ => 0, avail_idx := 0,
    used_ring := fun _ => ⟨0, 0⟩, used_idx := 0, used_event := 0,
    last_avail_idx := 0, last_used_signalled := 0 }

/-- A concrete resolver mapping guest address `a` to host pointer
`a + 1000`, with empty indirect tables. -/
def exKvm : Kvm := { flat := fun a => a + 1000, descTable := fun _ _ => zeroDesc }

/-- Claim C1: `virtio_queue__should_signal` returns true iff, with
`old = last_used_signalled`, `new` = the used index read from the used
ring and `event` = the guest-published used-event threshold,
`(new - event - 1) mod 2^16 < (new - old) mod 2^16`; when it returns true
it sets `last_used_signalled` to `new`, so an immediately repeated call
with no further used-index advance returns false. -/
theorem should_signal_spec (vq : VirtQueue) :
    ((virtio_queue__should_signal vq).1 = true ↔
      ((vq.used_idx : Int) - (vq.used_event : Int) - 1) % 65536
        < ((vq.used_idx : Int) - (vq.last_used_signalled : Int)) % 65536) ∧
    ((virtio_queue__should_signal vq).1 = true →
      (virtio_queue__should_signal vq).2.last_used_signalled = vq.used_idx ∧
      (virtio_queue__should_signal ((virtio_queue__should_signal vq).2)).1 = false) := by
  constructor
  · by_cases h : ((vq.used_idx : Int) - (vq.used_event : Int) - 1) % 65536
        < ((vq.used_idx : Int) - (vq.last_used_signalled : Int)) % 65536 <;>
      simp [virtio_queue__should_signal, vring_need_event, vring_used_event,
        virtio_guest_to_host_u16, h]
  · intro h
    by_cases hb : ((vq.used_idx : Int) - (vq.used_event : Int) - 1) % 65536
        < ((vq.used_idx : Int) - (vq.last_used_signalled : Int)) % 65536
    · have hEq : virtio_queue__should_signal vq
          = (true, { vq with last_used_signalled := vq.used_idx }) := by
        simp [virtio_queue__should_signal, vring_need_event, vring_used_event,
          virtio_guest_to_host_u16, hb]
      rw [hEq]
      refine ⟨rfl, ?_⟩
      have h2 : ¬ (((vq.used_idx : Int) - (vq.used_event : Int) - 1) % 65536 < 0) := by
        omega
      simp [virtio_queue__should_signal, vring_need_event, vring_used_event,
        virtio_guest_to_host_u16, h2]
    · exfalso
      simp [virtio_queue__should_signal, vring_need_event, vring_used_event,
        virtio_guest_to_host_u16, hb] at h

/-- Witness for C1 at the spec's own example: `old = 0`, `new = 5`,
`event = 3` signals, and the immediate repeat does not. -/
theorem should_signal_spec_witness :
    (virtio_queue__should_signal { baseQ with used_idx := 5, used_event := 3 }).2.last_used_signalled
      = ({ baseQ with used_idx := 5, used_event := 3 } : VirtQueue).used_idx ∧
    (virtio_queue__should_signal
      ((virtio_queue__should_signal { baseQ with used_idx := 5, used_event := 3 }).2)).1 = false :=
  (should_signal_spec { baseQ with used_idx := 5, used_event := 3 }).2 (by decide)

/-- Claim C2: `virt_queue__set_used_elem` writes the completion record
`(id = head, len = len)` into used-ring slot `used_idx % num`, leaves
every other slot unchanged, returns that same record, and advances the
used index by exactly one modulo 2^16 — so three consecutive posts
advance it by three modulo 2^16 (in particular from 65534 to 1). -/
theorem set_used_elem_spec (vq : VirtQueue) (head len : Nat) :
    (virt_queue__set_used_elem vq head len).2.used_ring (vq.used_idx % vq.num)
      = ⟨head, len⟩ ∧
    (virt_queue__set_used_elem vq head len).1 = ⟨head, len⟩ ∧
    (virt_queue__set_used_elem vq head len).2.used_idx = (vq.used_idx + 1) % 65536 ∧
    (∀ j, j ≠ vq.used_idx % vq.num →
      (virt_queue__set_used_elem vq head len).2.used_ring j = vq.used_ring j) ∧
    (virt_queue__set_used_elem
      (virt_queue__set_used_elem (virt_queue__set_used_elem vq head len).2 head len).2
      head len).2.used_idx = (vq.used_idx + 3) % 65536 := by
  refine ⟨?_, ?_, ?_, ?_, ?_⟩
  · simp [virt_queue__set_used_elem, virtio_guest_to_host_u16,
      virtio_host_to_guest_u32, virtio_host_to_guest_u16]
  · simp [virt_queue__set_used_elem, virtio_guest_to_host_u32,
      virtio_host_to_guest_u32]
  · simp [virt_queue__set_used_elem, virtio_guest_to_host_u16,
      virtio_host_to_guest_u16]
  · intro j hj
    simp [virt_queue__set_used_elem, virtio_guest_to_host_u16,
      virtio_host_to_guest_u32, virtio_host_to_guest_u16, hj]
  · simp [virt_queue__set_used_elem, virtio_guest_to_host_u16,
      virtio_host_to_guest_u16]

/-- Witness for C2: posting on a queue whose used index is 65534 writes
slot `65534 % 4 = 2`, leaves slot 0 alone, and three posts wrap the index
to 1. -/
theorem set_used_elem_spec_witness :
    (virt_queue__set_used_elem { baseQ with used_idx := 65534 } 7 9).2.used_ring
      (({ baseQ with used_idx := 65534 } : VirtQueue).used_idx % 4) = ⟨7, 9⟩ ∧
    (virt_queue__set_used_elem { baseQ with used_idx := 65534 } 7 9).2.used_ring 0
      = ({ baseQ with used_idx := 65534 } : VirtQueue).used_ring 0 ∧
    (virt_queue__set_used_elem
      (virt_queue__set_used_elem
        (virt_queue__set_used_elem { baseQ with used_idx := 65534 } 7 9).2 7 9).2
      7 9).2.used_idx = (({ baseQ with used_idx := 65534 } : VirtQueue).used_idx + 3) % 65536 :=
  ⟨(set_used_elem_spec { baseQ with used_idx := 65534 } 7 9).1,
   (set_used_elem_spec { baseQ with used_idx := 65534 } 7 9).2.2.2.1 0 (by decide),
   (set_used_elem_spec { baseQ with used_idx := 65534 } 7 9).2.2.2.2⟩

/-- Claim C8: `virtio__get_dev_specific_field` is pure and classifies:
with msix enabled and offset below 4 the offset goes to the
extended-capability region; with msix enabled and offset at least 4 it
goes to the device-specific config region at `offset - 4`; with msix
disabled every offset goes to the device-specific config region
unchanged. -/
theorem get_dev_specific_field_spec (offset : Int) (msix : Bool) :
    (msix = true → offset < 4 →
      virtio__get_dev_specific_field offset msix = (ConfigRegion.O_MSIX, none)) ∧
    (msix = true → 4 ≤ offset →
      virtio__get_dev_specific_field offset msix
        = (ConfigRegion.O_CONFIG, some (offset - 4))) ∧
    (msix = false →
      virtio__get_dev_specific_field offset msix
        = (ConfigRegion.O_CONFIG, some offset)) := by
  refine ⟨?_, ?_, ?_⟩
  · intro hm hlt
    simp [virtio__get_dev_specific_field, hm, hlt]
  · intro hm hge
    simp [virtio__get_dev_specific_field, hm, not_lt.mpr hge]
  · intro hm
    simp [virtio__get_dev_specific_field, hm]

/-- Witness for C8 at the spec's examples: offset 6 with msix lands in
the config region at 2; offset 2 with msix lands in the MSI-X region;
offset 6 without msix stays at 6. -/
theorem get_dev_specific_field_spec_witness :
    virtio__get_dev_specific_field 6 true = (ConfigRegion.O_CONFIG, some 2) ∧
    virtio__get_dev_specific_field 2 true = (ConfigRegion.O_MSIX, none) ∧
    virtio__get_dev_specific_field 6 false = (ConfigRegion.O_CONFIG, some 6) :=
  ⟨by simpa using (get_dev_specific_field_spec 6 true).2.1 rfl (by norm_num),
   (get_dev_specific_field_spec 2 true).1 rfl (by norm_num),
   (get_dev_specific_field_spec 6 false).2.2 rfl⟩

/-- Claim C6: `virtio_init` with a transport kind other than the two
supported variants returns `-1` with the device handle unchanged and no
init invoked; with allocation failing it returns `-ENOMEM`, again with
the handle unchanged and nothing installed; on success it installs all
four transport callbacks, attaches the transport-private state and
invokes the transport's init. -/
theorem virtio_init_spec (alloc_ok : Bool) (vdev : VirtioDevice) (ops : VirtioOps) (trans : Nat) :
    (trans ≠ VIRTIO_PCI → trans ≠ VIRTIO_MMIO →
      virtio_init alloc_ok vdev ops trans = (-1, vdev, false)) ∧
    (alloc_ok = false → trans = VIRTIO_PCI ∨ trans = VIRTIO_MMIO →
      virtio_init alloc_ok vdev ops trans = (-ENOMEM, vdev, false)) ∧
    (alloc_ok = true → trans = VIRTIO_PCI →
      virtio_init alloc_ok vdev ops trans =
        (0, { virtio := some TransportState.pci,
              ops := some ⟨some HostFn.virtio_pci__signal_vq,
                           some HostFn.virtio_pci__signal_config,
                           some HostFn.virtio_pci__init,
                           some HostFn.virtio_pci__exit⟩ }, true)) ∧
    (alloc_ok = true → trans = VIRTIO_MMIO →
      virtio_init alloc_ok vdev ops trans =
        (0, { virtio := some TransportState.mmio,
              ops := some ⟨some HostFn.virtio_mmio_signal_vq,
                           some HostFn.virtio_mmio_signal_config,
                           some HostFn.virtio_mmio_init,
                           some HostFn.virtio_mmio_exit⟩ }, true)) := by
  refine ⟨?_, ?_, ?_, ?_⟩
  · intro h1 h2
    simp [virtio_init, h1, h2]
  · rintro rfl (rfl | rfl) <;> simp [virtio_init, VIRTIO_PCI, VIRTIO_MMIO]
  · rintro rfl rfl
    simp [virtio_init]
  · rintro rfl rfl
    simp [virtio_init, VIRTIO_PCI, VIRTIO_MMIO]

/-- Witness for C6: transport kind 7 is rejected without touching a fresh
device handle, allocation failure yields `-12`, and a successful PCI bind
installs the four PCI callbacks. -/
theorem virtio_init_spec_witness :
    virtio_init true ⟨none, none⟩ ⟨none, none, none, none⟩ 7
      = (-1, ⟨none, none⟩, false) ∧
    virtio_init false ⟨none, none⟩ ⟨none, none, none, none⟩ VIRTIO_PCI
      = (-ENOMEM, ⟨none, none⟩, false) ∧
    virtio_init true ⟨none, none⟩ ⟨none, none, none, none⟩ VIRTIO_PCI
      = (0, { virtio := some TransportState.pci,
              ops := some ⟨some HostFn.virtio_pci__signal_vq,
                           some HostFn.virtio_pci__signal_config,
                           some HostFn.virtio_pci__init,
                           some HostFn.virtio_pci__exit⟩ }, true) :=
  ⟨(virtio_init_spec true ⟨none, none⟩ ⟨none, none, none, none⟩ 7).1
      (by decide) (by decide),
   (virtio_init_spec false ⟨none, none⟩ ⟨none, none, none, none⟩ VIRTIO_PCI).2.1
      rfl (Or.inl rfl),
   (virtio_init_spec true ⟨none, none⟩ ⟨none, none, none, none⟩ VIRTIO_PCI).2.2.1
      rfl rfl⟩

/-- The head of a well-formed chain lies below the bound. -/
theorem Chain.head_lt {desc : Nat → VringDesc} {max idx : Nat} {c : List Nat}
    (h : Chain desc max idx c) : idx < max := by
  cases h with
  | last _ hlt _ => exact hlt
  | cons _ _ hlt _ _ => exact hlt

/-- Splitting a list by a Boolean predicate preserves its length. -/
theorem length_filter_add_length_filter_not {α : Type} (p : α → Bool) (l : List α) :
    (l.filter p).length + (l.filter fun a => !(p a)).length = l.length := by
  induction l with
  | nil => rfl
  | cons a l ih =>
    cases hpa : p a <;> simp [List.filter_cons, hpa] <;> omega

/-- `head_iov_loop` threads the queue through unchanged: it only reads
the descriptor table. -/
theorem head_iov_loop_state (kvm : Kvm) (desc : Nat → VringDesc) (max : Nat) :
    ∀ fuel vq idx iov out inn,
      (head_iov_loop kvm desc max fuel vq idx iov out inn).2 = vq := by
  intro fuel
  induction fuel with
  | zero => intro vq idx iov out inn; rfl
  | succ n ih =>
    intro vq idx iov out inn
    simp only [head_iov_loop]
    split
    · rfl
    · exact ih vq _ _ _ _

/-- `inout_iov_loop` threads the queue through unchanged: it only reads
the descriptor table. -/
theorem inout_iov_loop_state (kvm : Kvm) :
    ∀ fuel queue idx in_iov out_iov inn out,
      (inout_iov_loop kvm fuel queue idx in_iov out_iov inn out).2 = queue := by
  intro fuel
  induction fuel with
  | zero => intro queue idx in_iov out_iov inn out; rfl
  | succ n ih =>
    intro queue idx in_iov out_iov inn out
    simp only [inout_iov_loop]
    split
    · exact ih queue _ _ _ _ _
    · rfl

/-- On a well-formed chain, `head_iov_loop` with enough fuel appends one
segment per chain element in next-index order, counting WRITE-flagged
descriptors in `*in` and the rest in `*out`, and leaves the queue
untouched. -/
theorem head_iov_loop_chain {desc : Nat → VringDesc} {max idx : Nat} {c : List Nat}
    (hc : Chain desc max idx c) (kvm : Kvm) (vq : VirtQueue) :
    ∀ fuel iov out inn, c.length ≤ fuel →
      head_iov_loop kvm desc max fuel vq idx iov out inn =
        (some (iov ++ c.map (descSeg vq kvm desc),
               out + (c.filter fun i =>
                 !(virt_desc__test_flag vq (desc i) VRING_DESC_F_WRITE)).length,
               inn + (c.filter fun i =>
                 virt_desc__test_flag vq (desc i) VRING_DESC_F_WRITE).length),
         vq) := by
  induction hc with
  | last idx hlt hend =>
    intro fuel iov out inn hf
    cases fuel with
    | zero => simp at hf
    | succ fuel =>
      have hnd : next_desc vq desc idx max = max := by
        simp [next_desc, virt_desc__test_flag, virtio_guest_to_host_u16, hend]
      simp only [head_iov_loop, hnd, if_pos]
      cases hw : virt_desc__test_flag vq (desc idx) VRING_DESC_F_WRITE <;>
        simp [hw, List.filter_cons]
  | cons idx c hlt hnext htail ih =>
    intro fuel iov out inn hf
    cases fuel with
    | zero => simp at hf
    | succ fuel =>
      have hne : next_desc vq desc idx max = (desc idx).next := by
        simp [next_desc, virt_desc__test_flag, virtio_guest_to_host_u16, hnext]
      have hnm : (desc idx).next ≠ max := Nat.ne_of_lt htail.head_lt
      have hf' : c.length ≤ fuel := by
        simp only [List.length_cons] at hf
        omega
      simp only [head_iov_loop, hne, if_neg hnm]
      rw [ih fuel _ _ _ hf']
      cases hw : virt_desc__test_flag vq (desc idx) VRING_DESC_F_WRITE <;>
        simp [hw, hnm, List.filter_cons, Prod.mk.injEq] <;> omega

/-- On a well-formed chain, `inout_iov_loop` with enough fuel appends the
WRITE-flagged segments to the `in` array and the others to the `out`
array, in next-index order, and leaves the queue untouched. -/
theorem inout_iov_loop_chain {queue : VirtQueue} {idx : Nat} {c : List Nat}
    (hc : Chain queue.desc queue.num idx c) (kvm : Kvm) :
    ∀ fuel in_iov out_iov inn out, c.length ≤ fuel →
      inout_iov_loop kvm fuel queue idx in_iov out_iov inn out =
        (some (in_iov ++ (c.filter fun i =>
                 virt_desc__test_flag queue (queue.desc i) VRING_DESC_F_WRITE).map
                   (descSeg queue kvm queue.desc),
               out_iov ++ (c.filter fun i =>
                 !(virt_desc__test_flag queue (queue.desc i) VRING_DESC_F_WRITE)).map
                   (descSeg queue kvm queue.desc),
               inn + (c.filter fun i =>
                 virt_desc__test_flag queue (queue.desc i) VRING_DESC_F_WRITE).length,
               out + (c.filter fun i =>
                 !(virt_desc__test_flag queue (queue.desc i) VRING_DESC_F_WRITE)).length),
         queue) := by
  induction hc with
  | last idx hlt hend =>
    intro fuel in_iov out_iov inn out hf
    cases fuel with
    | zero => simp at hf
    | succ fuel =>
      have hnd : virt_desc__test_flag queue (virt_queue__get_desc queue idx)
          VRING_DESC_F_NEXT = false := by
        simp [virt_desc__test_flag, virt_queue__get_desc, virtio_guest_to_host_u16, hend]
      simp only [inout_iov_loop, hnd, Bool.false_eq_true, if_neg, if_false]
      cases hw : virt_desc__test_flag queue (queue.desc idx) VRING_DESC_F_WRITE <;>
        simp [virt_queue__get_desc, hw, List.filter_cons]
  | cons idx c hlt hnext htail ih =>
    intro fuel in_iov out_iov inn out hf
    cases fuel with
    | zero => simp at hf
    | succ fuel =>
      have hnd : virt_desc__test_flag queue (virt_queue__get_desc queue idx)
          VRING_DESC_F_NEXT = true := by
        simp [virt_desc__test_flag, virt_queue__get_desc, virtio_guest_to_host_u16, hnext]
      have hf' : c.length ≤ fuel := by
        simp only [List.length_cons] at hf
        omega
      simp only [inout_iov_loop, hnd, if_true]
      simp only [virt_queue__get_desc, virtio_guest_to_host_u16]
      rw [ih fuel _ _ _ _ hf']
      rcases Bool.eq_false_or_eq_true
          (virt_desc__test_flag queue (queue.desc idx) VRING_DESC_F_WRITE) with hw | hw <;>
        simp [hw, List.filter_cons, Prod.mk.injEq] <;> omega

/-- Claim C3: for every valid terminating chain whose head descriptor
does not carry the indirect flag, `virt_queue__get_head_iov` (with fuel
covering the chain) visits exactly the chain's descriptors in next-index
order, produces one iovec per descriptor — WRITE-flagged ones counted in
`*in`, the rest in `*out`, with `*out + *in` equal to the chain length —
and returns the head index unchanged. -/
theorem get_head_iov_chain_spec (vq : VirtQueue) (kvm : Kvm) (head fuel : Nat)
    (c : List Nat) (hc : Chain vq.desc vq.num head c)
    (hni : virt_desc__test_flag vq (vq.desc head) VRING_DESC_F_INDIRECT = false)
    (hlen : c.length ≤ vq.num) (hf : c.length ≤ fuel) :
    (virt_queue__get_head_iov vq kvm head fuel).1 =
      some (c.map (descSeg vq kvm vq.desc),
            (c.filter fun i =>
              !(virt_desc__test_flag vq (vq.desc i) VRING_DESC_F_WRITE)).length,
            (c.filter fun i =>
              virt_desc__test_flag vq (vq.desc i) VRING_DESC_F_WRITE).length,
            head) ∧
    (c.filter fun i =>
      !(virt_desc__test_flag vq (vq.desc i) VRING_DESC_F_WRITE)).length
      + (c.filter fun i =>
          virt_desc__test_flag vq (vq.desc i) VRING_DESC_F_WRITE).length
      = c.length := by
  constructor
  · simp only [virt_queue__get_head_iov, hni, Bool.false_eq_true, if_false]
    rw [head_iov_loop_chain hc kvm vq fuel [] 0 0 hf]
    simp
  · rw [Nat.add_comm]
    exact length_filter_add_length_filter_not _ c

/-- A concrete two-element chain for the C3 witness: descriptor 0 links
to descriptor 1 (device-readable), descriptor 1 is WRITE-flagged and
terminal. -/
def chainQ : VirtQueue :=
  { baseQ with
    desc := fun i => if i = 0 then ⟨100, 10, 1, 1⟩
                     else if i = 1 then ⟨200, 20, 2, 0⟩ else zeroDesc }

/-- Witness for C3 on the concrete chain `[0, 1]`: one readable and one
writable segment, head 0 returned. -/
theorem get_head_iov_chain_spec_witness :
    (virt_queue__get_head_iov chainQ exKvm 0 2).1 =
      some ([0, 1].map (descSeg chainQ exKvm chainQ.desc),
            ([0, 1].filter fun i =>
              !(virt_desc__test_flag chainQ (chainQ.desc i) VRING_DESC_F_WRITE)).length,
            ([0, 1].filter fun i =>
              virt_desc__test_flag chainQ (chainQ.desc i) VRING_DESC_F_WRITE).length,
            0) ∧
    (([0, 1].filter fun i =>
      !(virt_desc__test_flag chainQ (chainQ.desc i) VRING_DESC_F_WRITE)).length
      + ([0, 1].filter fun i =>
          virt_desc__test_flag chainQ (chainQ.desc i) VRING_DESC_F_WRITE).length
      = ([0, 1] : List Nat).length) :=
  get_head_iov_chain_spec chainQ exKvm 0 2 [0, 1]
    (Chain.cons 0 [1] (by decide) (by decide)
      (by have h1 : (chainQ.desc 0).next = 1 := by decide
          rw [h1]
          exact Chain.last 1 (by decide) (by decide)))
    (by decide) (by decide) (by decide)

/-- The guest-resident ring memory of a queue: descriptor table, avail
ring and its index, used ring, used index and used-event threshold — the
regions the chain walkers must never write. -/
def guestRings (vq : VirtQueue) :
    (Nat → VringDesc) × (Nat → Nat) × Nat × (Nat → VringUsedElem) × Nat × Nat :=
  (vq.desc, vq.avail_ring, vq.avail_idx, vq.used_ring, vq.used_idx, vq.used_event)

/-- Claim C9: none of the chain-walking operations writes to the
descriptor table, the available ring, or the used ring: every descriptor
access during a walk is a read, so all guest-resident ring memory is
unchanged by `virt_queue__get_head_iov`, `virt_queue__get_iov` and
`virt_queue__get_inout_iov` (the popping variants advance only the
host-local avail cursor). -/
theorem walkers_read_only (vq : VirtQueue) (kvm : Kvm) (head fuel : Nat) :
    guestRings (virt_queue__get_head_iov vq kvm head fuel).2 = guestRings vq ∧
    guestRings (virt_queue__get_iov vq kvm fuel).2 = guestRings vq ∧
    guestRings (virt_queue__get_inout_iov kvm vq fuel).2 = guestRings vq := by
  refine ⟨?_, ?_, ?_⟩ <;>
    simp [virt_queue__get_head_iov, virt_queue__get_iov, virt_queue__get_inout_iov,
      virt_queue__pop, guestRings, head_iov_loop_state, inout_iov_loop_state]

/-- The result value of `head_iov_loop` does not depend on the threaded
queue: the queue is consulted only through the endianness accessor. -/
theorem head_iov_loop_fst_queue_irrel (kvm : Kvm) (desc : Nat → VringDesc) (max : Nat) :
    ∀ fuel vq vq' idx iov out inn,
      (head_iov_loop kvm desc max fuel vq idx iov out inn).1 =
      (head_iov_loop kvm desc max fuel vq' idx iov out inn).1 := by
  intro fuel
  induction fuel with
  | zero => intro vq vq' idx iov out inn; rfl
  | succ n ih =>
    intro vq vq' idx iov out inn
    simp only [head_iov_loop]
    have h1 : next_desc vq desc idx max = next_desc vq' desc idx max := rfl
    have h2 : virt_desc__test_flag vq (desc idx) VRING_DESC_F_WRITE
        = virt_desc__test_flag vq' (desc idx) VRING_DESC_F_WRITE := rfl
    have h3 : descSeg vq kvm desc idx = descSeg vq' kvm desc idx := rfl
    rw [h1, h2, h3]
    split
    · rfl
    · exact ih vq vq' _ _ _ _

/-- Claim C5: when the head descriptor carries the INDIRECT flag, the
walk of `virt_queue__get_head_iov` runs entirely inside the descriptor
table found at the head descriptor's address, with maximum bound
`len / sizeof(struct vring_desc)` and starting index 0; the original
descriptor table is never read again: any queue agreeing with `vq` at the
head descriptor alone produces the same result. -/
theorem get_head_iov_indirect_spec (vq vq' : VirtQueue) (kvm : Kvm) (head fuel : Nat)
    (hind : virt_desc__test_flag vq (vq.desc head) VRING_DESC_F_INDIRECT = true)
    (hsame : vq'.desc head = vq.desc head) :
    (virt_queue__get_head_iov vq kvm head fuel).1 =
      ((head_iov_loop kvm
        (kvm.descTable (virtio_guest_to_host_u64 vq (vq.desc head).addr))
        (virtio_guest_to_host_u32 vq (vq.desc head).len / vring_desc_size)
        fuel vq 0 [] 0 0).1.map fun r => (r.1, r.2.1, r.2.2, head)) ∧
    (virt_queue__get_head_iov vq' kvm head fuel).1 =
      (virt_queue__get_head_iov vq kvm head fuel).1 := by
  have hind' : virt_desc__test_flag vq' (vq'.desc head) VRING_DESC_F_INDIRECT = true := by
    rw [hsame]
    exact hind
  constructor
  · simp [virt_queue__get_head_iov, hind]
  · simp only [virt_queue__get_head_iov, hind, hind', if_true,
      virtio_guest_to_host_u64, virtio_guest_to_host_u32]
    rw [hsame]
    exact congrArg (Option.map _)
      (head_iov_loop_fst_queue_irrel kvm _ _ fuel vq' vq 0 [] 0 0)

/-- A queue whose head descriptor is INDIRECT, pointing at guest address
100 with a 32-byte (two-entry) indirect table. -/
def indQ : VirtQueue :=
  { baseQ with desc := fun i => if i = 0 then ⟨100, 32, 4, 0⟩ else zeroDesc }

/-- `indQ` with garbage everywhere in the main table except the head
descriptor. -/
def indQ' : VirtQueue :=
  { baseQ with desc := fun i => if i = 0 then ⟨100, 32, 4, 0⟩ else ⟨999, 999, 1, 3⟩ }

/-- A resolver whose guest memory holds a two-entry descriptor chain at
address 100. -/
def indKvm : Kvm :=
  { flat := fun a => a + 1000
    descTable := fun base i =>
      if base = 100 then
        if i = 0 then ⟨1, 10, 1, 1⟩ else if i = 1 then ⟨2, 20, 2, 0⟩ else zeroDesc
      else zeroDesc }

/-- Witness for C5 on the concrete indirect queue: the walk equals the
indirect-table walk, and corrupting every other main-table entry does not
change the result. -/
theorem get_head_iov_indirect_spec_witness :
    (virt_queue__get_head_iov indQ indKvm 0 3).1 =
      ((head_iov_loop indKvm
        (indKvm.descTable (virtio_guest_to_host_u64 indQ (indQ.desc 0).addr))
        (virtio_guest_to_host_u32 indQ (indQ.desc 0).len / vring_desc_size)
        3 indQ 0 [] 0 0).1.map fun r => (r.1, r.2.1, r.2.2, 0)) ∧
    (virt_queue__get_head_iov indQ' indKvm 0 3).1 =
      (virt_queue__get_head_iov indQ indKvm 0 3).1 :=
  get_head_iov_indirect_spec indQ indQ' indKvm 0 3 (by decide) (by decide)

/-- Every successful pass of `head_iov_loop` grows the segment count and
the iovec list by at least one per visited descriptor. -/
theorem head_iov_loop_growth (kvm : Kvm) (desc : Nat → VringDesc) (max : Nat) :
    ∀ fuel vq idx iov out inn iov' out' inn',
      (head_iov_loop kvm desc max fuel vq idx iov out inn).1 = some (iov', out', inn') →
      out + inn < out' + inn' ∧ iov.length < iov'.length := by
  intro fuel
  induction fuel with
  | zero =>
    intro vq idx iov out inn iov' out' inn' h
    exact absurd h (by simp [head_iov_loop])
  | succ n ih =>
    intro vq idx iov out inn iov' out' inn' h
    simp only [head_iov_loop] at h
    split at h
    · simp only [Prod.mk.injEq, Option.some.injEq] at h
      obtain ⟨hiov, hout, hinn⟩ := h
      rcases Bool.eq_false_or_eq_true
          (virt_desc__test_flag vq (desc idx) VRING_DESC_F_WRITE) with hw | hw <;>
        simp [hw] at hout hinn <;>
        constructor <;> (try omega) <;> simp [← hiov]
    · have := ih vq _ _ _ _ _ _ _ h
      rcases Bool.eq_false_or_eq_true
          (virt_desc__test_flag vq (desc idx) VRING_DESC_F_WRITE) with hw | hw <;>
        simp [hw] at this <;>
        constructor <;> omega

/-- Claim C7 counterexample: the shortest possible chain — a single
terminal descriptor — already yields one segment, not the empty
readable/writable lists the claim asserts: `virt_queue__get_head_iov` can
never return `*out = *in = 0` with no iovec written. -/
theorem get_head_iov_zero_segments_counterexample :
    (virt_queue__get_head_iov baseQ exKvm 0 1).1 = some ([⟨1000, 0⟩], 1, 0, 0) ∧
    ¬ ((1 : Nat) + (0 : Nat) = 0 ∧ ([⟨1000, 0⟩] : List Iovec) = []) := by
  constructor
  · rfl
  · decide

/-- Claim C7 (amended): a zero-segment result is impossible — the walk
loop is a do-while that always processes the head descriptor, so every
successful walk returns at least one segment (`*out + *in ≥ 1`) and a
nonempty iovec list; the claim's "zero segments yields empty lists" case
never arises. -/
theorem get_head_iov_nonempty (vq : VirtQueue) (kvm : Kvm) (head fuel : Nat)
    (iov : List Iovec) (out inn hd : Nat)
    (h : (virt_queue__get_head_iov vq kvm head fuel).1 = some (iov, out, inn, hd)) :
    1 ≤ out + inn ∧ iov ≠ [] := by
  simp only [virt_queue__get_head_iov, Option.map_eq_some'] at h
  obtain ⟨r, hr, hf⟩ := h
  obtain ⟨riov, rout, rinn⟩ := r
  simp only [Prod.mk.injEq] at hf
  obtain ⟨h1, h2, h3, -⟩ := hf
  have := head_iov_loop_growth kvm _ _ fuel vq _ [] 0 0 riov rout rinn hr
  subst h1 h2 h3
  refine ⟨by omega, ?_⟩
  intro hnil
  rw [hnil] at this
  simp at this

/-- Witness for C7's amended theorem at the concrete one-descriptor
chain. -/
theorem get_head_iov_nonempty_witness :
    1 ≤ 1 + 0 ∧ ([⟨1000, 0⟩] : List Iovec) ≠ [] :=
  get_head_iov_nonempty baseQ exKvm 0 1 [⟨1000, 0⟩] 1 0 0 rfl

/-- A queue whose descriptor 0 links to itself via the NEXT flag: the
chain `0 → 0 → 0 → ...` never terminates. -/
def cycQ : VirtQueue := { baseQ with num := 2, desc := fun _ => ⟨0, 0, 1, 0⟩ }

/-- On the self-linking descriptor the walk loop never finishes, for any
amount of fuel. -/
theorem cyc_loop_none : ∀ fuel iov out inn,
    (head_iov_loop exKvm cycQ.desc cycQ.num fuel cycQ 0 iov out inn).1 = none := by
  intro fuel
  induction fuel with
  | zero => intro iov out inn; rfl
  | succ n ih =>
    intro iov out inn
    simp only [head_iov_loop]
    rw [if_neg (by decide : ¬ (next_desc cycQ cycQ.desc 0 cycQ.num = cycQ.num))]
    exact ih _ _ _

/-- Claim C4 (refuted by the code, supporting the code_bug finding): on a
queue whose descriptor 0 carries the NEXT flag and links to itself, the
traversal of `virt_queue__get_head_iov` started at head 0 never
terminates — it returns no result for any fuel, although the head is not
indirect and the ring size is 2.  The sentinel `max` returned by
`next_desc` does not bound the chain: the source's own comment says the
next index is checked against the end of the table, but the check is
absent. -/
theorem get_head_iov_cycle_diverges (fuel : Nat) :
    (virt_queue__get_head_iov cycQ exKvm 0 fuel).1 = none := by
  have hni : virt_desc__test_flag cycQ (cycQ.desc 0) VRING_DESC_F_INDIRECT = false := by
    decide
  simp only [virt_queue__get_head_iov, hni, Bool.false_eq_true, if_false]
  rw [cyc_loop_none fuel [] 0 0]
  rfl

/-- The result value of `inout_iov_loop` depends on the threaded queue
only through its descriptor table. -/
theorem inout_iov_loop_fst_desc_eq (kvm : Kvm) :
    ∀ fuel q q' idx a b i o, q.desc = q'.desc →
      (inout_iov_loop kvm fuel q idx a b i o).1 =
      (inout_iov_loop kvm fuel q' idx a b i o).1 := by
  intro fuel
  induction fuel with
  | zero => intro q q' idx a b i o h; rfl
  | succ n ih =>
    intro q q' idx a b i o h
    have h2 : ∀ d f, virt_desc__test_flag q d f = virt_desc__test_flag q' d f :=
      fun _ _ => rfl
    have h3 : descSeg q kvm q'.desc = descSeg q' kvm q'.desc := rfl
    simp only [inout_iov_loop, virt_queue__get_desc, h, h2, h3,
      virtio_guest_to_host_u16]
    split
    · exact ih q q' _ _ _ _ _ h
    · rfl

/-- Claim C10: for a valid terminating chain with a non-indirect head,
`virt_queue__get_inout_iov` and `virt_queue__get_head_iov` started from
the same (popped) head compute the same partition: both return that head,
their `*in` counts agree and their `*out` counts agree, the `in_iov`
array equals the subsequence of `get_head_iov`'s iov entries coming from
WRITE-flagged descriptors (`(c.filter writeFlag).map seg` against
`c.map seg`), and the `out_iov` array equals the subsequence from the
remaining descriptors. -/
theorem inout_matches_head_iov (vq : VirtQueue) (kvm : Kvm) (c : List Nat) (fuel : Nat)
    (hc : Chain vq.desc vq.num (vq.avail_ring (vq.last_avail_idx % vq.num)) c)
    (hni : virt_desc__test_flag vq (vq.desc (vq.avail_ring (vq.last_avail_idx % vq.num)))
      VRING_DESC_F_INDIRECT = false)
    (hf : c.length ≤ fuel) :
    (virt_queue__get_inout_iov kvm vq fuel).1 =
      some ((c.filter fun i =>
              virt_desc__test_flag vq (vq.desc i) VRING_DESC_F_WRITE).map
                (descSeg vq kvm vq.desc),
            (c.filter fun i =>
              !(virt_desc__test_flag vq (vq.desc i) VRING_DESC_F_WRITE)).map
                (descSeg vq kvm vq.desc),
            (c.filter fun i =>
              virt_desc__test_flag vq (vq.desc i) VRING_DESC_F_WRITE).length,
            (c.filter fun i =>
              !(virt_desc__test_flag vq (vq.desc i) VRING_DESC_F_WRITE)).length,
            vq.avail_ring (vq.last_avail_idx % vq.num)) ∧
    (virt_queue__get_head_iov vq kvm (vq.avail_ring (vq.last_avail_idx % vq.num)) fuel).1 =
      some (c.map (descSeg vq kvm vq.desc),
            (c.filter fun i =>
              !(virt_desc__test_flag vq (vq.desc i) VRING_DESC_F_WRITE)).length,
            (c.filter fun i =>
              virt_desc__test_flag vq (vq.desc i) VRING_DESC_F_WRITE).length,
            vq.avail_ring (vq.last_avail_idx % vq.num)) := by
  constructor
  · have e : (inout_iov_loop kvm fuel
        { vq with last_avail_idx := (vq.last_avail_idx + 1) % 65536 }
        (vq.avail_ring (vq.last_avail_idx % vq.num)) [] [] 0 0).1
      = (inout_iov_loop kvm fuel vq
        (vq.avail_ring (vq.last_avail_idx % vq.num)) [] [] 0 0).1 :=
      inout_iov_loop_fst_desc_eq kvm fuel _ _ _ [] [] 0 0 rfl
    simp only [virt_queue__get_inout_iov, virt_queue__pop]
    rw [e, @inout_iov_loop_chain vq (vq.avail_ring (vq.last_avail_idx % vq.num)) c
      hc kvm fuel [] [] 0 0 hf]
    simp
  · simp only [virt_queue__get_head_iov, hni, Bool.false_eq_true, if_false]
    rw [head_iov_loop_chain hc kvm vq fuel [] 0 0 hf]
    simp

/-- Witness for C10 on the concrete two-element chain `[0, 1]` popped
from `chainQ`'s available ring. -/
theorem inout_matches_head_iov_witness :
    (virt_queue__get_inout_iov exKvm chainQ 2).1 =
      some (([0, 1].filter fun i =>
              virt_desc__test_flag chainQ (chainQ.desc i) VRING_DESC_F_WRITE).map
                (descSeg chainQ exKvm chainQ.desc),
            ([0, 1].filter fun i =>
              !(virt_desc__test_flag chainQ (chainQ.desc i) VRING_DESC_F_WRITE)).map
                (descSeg chainQ exKvm chainQ.desc),
            ([0, 1].filter fun i =>
              virt_desc__test_flag chainQ (chainQ.desc i) VRING_DESC_F_WRITE).length,
            ([0, 1].filter fun i =>
              !(virt_desc__test_flag chainQ (chainQ.desc i) VRING_DESC_F_WRITE)).length,
            chainQ.avail_ring (chainQ.last_avail_idx % chainQ.num)) ∧
    (virt_queue__get_head_iov chainQ exKvm
        (chainQ.avail_ring (chainQ.last_avail_idx % chainQ.num)) 2).1 =
      some (([0, 1] : List Nat).map (descSeg chainQ exKvm chainQ.desc),
            ([0, 1].filter fun i =>
              !(virt_desc__test_flag chainQ (chainQ.desc i) VRING_DESC_F_WRITE)).length,
            ([0, 1].filter fun i =>
              virt_desc__test_flag chainQ (chainQ.desc i) VRING_DESC_F_WRITE).length,
            chainQ.avail_ring (chainQ.last_avail_idx % chainQ.num)) :=
  inout_matches_head_iov chainQ exKvm [0, 1] 2
    (Chain.cons 0 [1] (by decide) (by decide)
      (by have h1 : (chainQ.desc 0).next = 1 := by decide
          rw [h1]
          exact Chain.last 1 (by decide) (by decide)))
    (by decide) (by decide)

end VirtioCore
